import Mathlib

/-!
# Verification of the CyberDropDownloader orchestration core

Shallow embedding of the parts of `cyberdrop_dl` needed by the spec claims:
filename/URL string utilities (`utilities.py`), the scrape error wrapper
(`error_handling_wrapper`), the Bunkr crawlers' URL routing
(`get_stream_link`, `remove_id`, `get_file`) and the Turbovid scrape
handler. Python strings are modelled as `List Char` (ASCII-faithful);
Python string methods (`rsplit`, `strip`, `split`, `in`, `startswith`)
are given executable Lean counterparts.
-/

namespace CyberdropDl

/-! ## Python string primitives on `List Char` -/

/-- Python `str.strip()` whitespace set (ASCII part). -/
def isPyWhitespace (c : Char) : Bool :=
  c = ' ' || c = '\t' || c = '\n' || c = '\x0d' || c = '\x0b' || c = '\x0c'

/-- Python `s.strip()`: drop leading and trailing whitespace. -/
def pyStrip (s : List Char) : List Char :=
  ((s.dropWhile isPyWhitespace).reverse.dropWhile isPyWhitespace).reverse

/-- Python `s.rstrip(".")`: drop trailing dots. -/
def rstripDots (s : List Char) : List Char :=
  (s.reverse.dropWhile (fun c => c = '.')).reverse

/-- Split at the first occurrence of `c`: `some (before, after)`, or
`none` when `c` does not occur. -/
def splitFirst (c : Char) : List Char → Option (List Char × List Char)
  | [] => none
  | a :: rest =>
    if a = c then some ([], rest)
    else (splitFirst c rest).map (fun p => (a :: p.1, p.2))

/-- Python `s.rsplit(c, 1)` on a single-character separator, as
`some (before-last-occurrence, after-last-occurrence)`; `none` when the
separator does not occur (Python returns the one-element list `[s]`). -/
def pyRsplit1 (c : Char) (s : List Char) : Option (List Char × List Char) :=
  (splitFirst c s.reverse).map (fun p => (p.2.reverse, p.1.reverse))

/-- Index of the first occurrence of `sep` (as a contiguous substring). -/
def firstOcc (sep : List Char) : List Char → Option Nat
  | [] => if sep = [] then some 0 else none
  | a :: rest =>
    if sep.isPrefixOf (a :: rest) then some 0
    else (firstOcc sep rest).map (· + 1)

/-- Python `s.rsplit(sep, 1)[0]` for a (nonempty) multi-character
separator: everything before the last occurrence of `sep`, or `s`
itself when `sep` does not occur. Implemented by searching for the
first occurrence of the reversed separator in the reversed string. -/
def rsplitBefore (sep s : List Char) : List Char :=
  match firstOcc sep.reverse s.reverse with
  | none => s
  | some i => ((s.reverse.drop (i + sep.length)).reverse)

/-- Python `needle in hay` (contiguous substring test). -/
def containsSub (needle : List Char) : List Char → Bool
  | [] => needle.isPrefixOf []
  | a :: rest => needle.isPrefixOf (a :: rest) || containsSub needle rest

/-- Python `s.split(c)` on a single-character separator. -/
def splitOnChar (c : Char) : List Char → List (List Char)
  | [] => [[]]
  | a :: rest =>
    match splitOnChar c rest with
    | [] => [[a]]
    | s :: ss => if a = c then [] :: s :: ss else (a :: s) :: ss

/-- Collapse maximal runs of `c` to a single `c` (the effect of
`re.sub(' +', ' ', s)` and of `re.sub(r'\.\x7b2,\x7d', ".", s)`). -/
def collapseRuns (c : Char) : List Char → List Char
  | [] => []
  | [a] => [a]
  | a :: b :: rest =>
    if a = c ∧ b = c then collapseRuns c (b :: rest)
    else a :: collapseRuns c (b :: rest)

/-- Python `str.isnumeric()` (ASCII digits). -/
def isNumericStr (s : List Char) : Bool :=
  !(s.isEmpty) && s.all Char.isDigit

/-- Python `s.replace(p :: pt, rep)`: replace every occurrence of the
(nonempty) pattern `p :: pt` by `rep`, scanning left to right. -/
def replaceSub (p : Char) (pt rep : List Char) : List Char → List Char
  | [] => []
  | a :: rest =>
    if (p :: pt).isPrefixOf (a :: rest) then
      rep ++ replaceSub p pt rep (rest.drop pt.length)
    else a :: replaceSub p pt rep rest
termination_by l => l.length
decreasing_by
  all_goals simp only [List.length_drop, List.length_cons]
  all_goals omega

/-! ## Error taxonomy and `error_handling_wrapper` (utilities.py 56-98) -/

/-- The exceptions distinguished by `error_handling_wrapper`.
`other status hasMessage` stands for any other `Exception`, recording
whether it carries a `status` attribute (HTTP code) and a `message`. -/
inductive Exc where
  | noExtension
  | passwordProtected
  | failedLogin
  | invalidContentType
  | timeout
  | other (status : Option Nat) (hasMessage : Bool)
deriving DecidableEq, Repr

/-- Argument passed to `scrape_stats_progress.add_failure`. -/
inductive FailCat where
  | noFileExtension
  | passwordProtected
  | failedLogin
  | invalidContentType
  | timeout
  | status (code : Nat)
  | unknown
deriving DecidableEq, Repr

/-- Observable effects of one pass through `error_handling_wrapper`'s
`except` clauses: `log(...)` calls, error-log records written to the
scrape-error log resp. the unsupported-URLs log, and `add_failure`
calls. -/
structure WrapperEffects where
  logCalls : Nat
  scrapeErrorLogWrites : Nat
  unsupportedUrlsLogWrites : Nat
  failuresAdded : List FailCat
deriving DecidableEq, Repr

/-- The category `error_handling_wrapper` passes to `add_failure`
(utilities.py lines 64-97). -/
def scrapeFailureCategory : Exc → FailCat
  | Exc.noExtension => FailCat.noFileExtension
  | Exc.passwordProtected => FailCat.passwordProtected
  | Exc.failedLogin => FailCat.failedLogin
  | Exc.invalidContentType => FailCat.invalidContentType
  | Exc.timeout => FailCat.timeout
  | Exc.other (some s) _ => FailCat.status s
  | Exc.other none _ => FailCat.unknown

/-- `error_handling_wrapper` (utilities.py 56-98). `firstArgHasUrl`
models `isinstance(args[0], URL) or hasattr(args[0], "url")`: when
false, the `link = ...` line before the `try` raises `AttributeError`,
which escapes the wrapper. Otherwise every exception of the body is
caught: the wrapper logs, writes one error-log record, adds one failure
category and returns `None` (it never re-raises). -/
def error_handling_wrapper {α : Type} (firstArgHasUrl : Bool) (body : Except Exc α) :
    Except Exc (Option α × WrapperEffects) :=
  if firstArgHasUrl = false then
    Except.error (Exc.other none false)
  else
    match body with
    | Except.ok v => Except.ok (some v, ⟨0, 0, 0, []⟩)
    | Except.error e =>
      Except.ok (none,
        { logCalls := match e with
            | Exc.other none _ => 2
            | _ => 1
          scrapeErrorLogWrites := match e with
            | Exc.passwordProtected => 0
            | _ => 1
          unsupportedUrlsLogWrites := match e with
            | Exc.passwordProtected => 1
            | _ => 0
          failuresAdded := [scrapeFailureCategory e] })

/-- The category claim C3 assigns to each exception (worded from the
spec/claim, as a second definition to compare with the source's
`scrapeFailureCategory`). -/
def claimCategory : Exc → FailCat
  | Exc.noExtension => FailCat.noFileExtension
  | Exc.passwordProtected => FailCat.passwordProtected
  | Exc.failedLogin => FailCat.failedLogin
  | Exc.invalidContentType => FailCat.invalidContentType
  | Exc.timeout => FailCat.timeout
  | Exc.other (some s) _ => FailCat.status s
  | Exc.other none _ => FailCat.unknown

/-! ## Filename utilities (utilities.py 200-278) -/

/-- Characters removed by `sanitize` (regex class in utilities.py 202). -/
def illegalNameChars : List Char :=
  ['<', '>', ':', '"', '/', '\\', '|', '?', '*', '\'']

/-- `sanitize` (utilities.py 200-202): remove illegal characters, then
`strip()`. -/
def sanitize (name : List Char) : List Char :=
  pyStrip (name.filter (fun c => !(illegalNameChars.contains c)))

def MAX_NAME_LENGTH_FILE : Nat := 95

def MAX_NAME_LENGTH_FOLDER : Nat := 60

/-- utilities.py 236-239: in forum mode a numeric extension candidate
makes the code re-split `filename_parts[0]` on the last `-`; with no
`-` present the one-element list makes `parts[0]` and `parts[-1]`
coincide. -/
def gfeParts (p0 p1 : List Char) (forum : Bool) : List Char × List Char :=
  if isNumericStr p1 ∧ forum then
    match pyRsplit1 '-' p0 with
    | some (a, b) => (a, b)
    | none => (p0, p0)
  else (p0, p1)

/-- utilities.py 245-247: truncate the base name to
`MAX_NAME_LENGTHS['FILE']`, `strip()`, `rstrip(".")`. -/
def gfeBase (p : List Char) : List Char :=
  rstripDots (pyStrip
    (if p.length > MAX_NAME_LENGTH_FILE then p.take MAX_NAME_LENGTH_FILE else p))

/-- `get_filename_and_ext` (utilities.py 224-251). Returns
`(sanitized filename+ext, ext)` or `Except.error ()` for
`NoExtensionFailure`. The `print` diagnostics are ignored. -/
def get_filename_and_ext (filename : List Char) (forum : Bool) :
    Except Unit (List Char × List Char) :=
  if filename = [] then Except.error ()
  else
    match pyRsplit1 '.' filename with
    | none => Except.error ()
    | some (p0, p1) =>
      let parts := gfeParts p0 p1 forum
      if parts.2.length > 5 then Except.error ()
      else
        let ext := '.' :: parts.2.map Char.toLower
        Except.ok (sanitize (gfeBase parts.1 ++ ext), ext)

/-- Characters replaced by `-` in `sanitize_folder` (utilities.py 210). -/
def folderIllegalChars : List Char :=
  ['\\', '*', '?', ':', '"', '<', '>', '|', '/']

/-- The character substitution of utilities.py 210: illegal characters
become `-`. -/
def folderCharMap (c : Char) : Char :=
  if folderIllegalChars.contains c then '-' else c

/-- utilities.py 207-212: the replace/strip/collapse pipeline of
`sanitize_folder` before the parenthesis handling. -/
def folderPreprocess (title : List Char) : List Char :=
  let t := pyStrip (title.filter (fun c => !(c == '\n')))
  let t := pyStrip (t.filter (fun c => !(c == '\t')))
  let t := collapseRuns ' ' t
  let t := t.map folderCharMap
  let t := collapseRuns '.' t
  pyStrip (rstripDots t)

/-- `sanitize_folder` (utilities.py 205-221). `t.rsplit("(")[0]` and
`t.rsplit("(")[1]` (no maxsplit, so identical to `split`) are realised
as the segment before the first `(` and the segment between the first
and second `(`. -/
def sanitize_folder (title : List Char) : List Char :=
  let t := folderPreprocess title
  if '(' ∈ t ∧ ')' ∈ t then
    let newTitle := pyStrip (t.takeWhile (fun c => c ≠ '('))
    let newTitle := pyStrip (newTitle.take MAX_NAME_LENGTH_FOLDER)
    let domainPart := pyStrip (((t.dropWhile (fun c => c ≠ '(')).drop 1).takeWhile (fun c => c ≠ '('))
    newTitle ++ [' ', '('] ++ domainPart
  else pyStrip (t.take MAX_NAME_LENGTH_FOLDER)

/-- `remove_id` (utilities.py 269-278; identically
`BunkrCrawler.remove_id`, Bunkr_Spider.py 158-166).
`removeGeneratedId` models the
`remove_generated_id_from_filenames` setting (resp. `remove_bunkr_id`).
Returns `(original_filename, filename)`. -/
def remove_id (removeGeneratedId : Bool) (filename ext : List Char) :
    List Char × List Char :=
  if removeGeneratedId then
    let f1 := rsplitBefore ext filename
    let f2 := rsplitBefore ['-'] f1
    let f3 := if containsSub ext f2 then f2 else f2 ++ ext
    (filename, f3)
  else (filename, filename)

/-! ## URLs and `FILE_FORMATS` (utilities.py 32-53) -/

/-- A yarl URL, reduced to the fields the embedded code reads: scheme,
host and path segments (yarl's `parts` without the leading `/`). -/
structure Url where
  scheme : List Char
  host : Option (List Char)
  segs : List (List Char)
deriving DecidableEq, Repr

/-- yarl `url.name`: the last path segment, or `""` for the root path. -/
def Url.name (u : Url) : List Char := (u.segs.getLast?).getD []

/-- yarl `url.parts[-1]`: the last element of `('/',) + segments`. -/
def Url.lastPart (u : Url) : List Char :=
  match u.segs.getLast? with
  | some s => s
  | none => ['/']

/-- yarl/pathlib `url.suffix`: `"." + name-after-last-dot` when the last
dot is neither the first nor the last character of the name. -/
def pathSuffix (name : List Char) : List Char :=
  match pyRsplit1 '.' name with
  | none => []
  | some (before, after) => if before = [] ∨ after = [] then [] else '.' :: after

def imagesExts : List (List Char) :=
  [".jpg", ".jpeg", ".png", ".gif", ".gifv", ".webp", ".jpe", ".svg",
   ".jfif", ".tif", ".tiff", ".jif"].map String.toList

def videosExts : List (List Char) :=
  [".mpeg", ".avchd", ".webm", ".mpv", ".swf", ".avi", ".m4p", ".wmv",
   ".mp2", ".m4v", ".qt", ".mpe", ".mp4", ".flv", ".mov", ".mpg",
   ".ogg", ".mkv", ".mts", ".ts", ".f4v"].map String.toList

def audioExts : List (List Char) :=
  [".mp3", ".flac", ".wav", ".m4a"].map String.toList

def textExts : List (List Char) :=
  [".htm", ".html", ".md", ".nfo", ".txt"].map String.toList

/-! ## `BunkrrCrawler.get_stream_link` (bunkrr_crawler.py 1528-1594) -/

def cdnDomains : List (List Char) :=
  ["wiener", "i-wiener", "ramen", "i-ramen", "nachos", "i-nachos",
   "wings", "i-wings", "pizza", "i-pizza", "burger", "i-burger",
   "fries", "i-fries", "meatballs", "i-meatballs", "milkshake", "i-milkshake",
   "kebab", "i-kebab", "taquito", "i-taquito", "soup", "i-soup",
   "cdn-wiener", "cdn-ramen", "cdn-pizza", "cdn-burger", "cdn-meatballs",
   "cdn-milkshake", "cdn-kebab", "cdn-taquito", "cdn-soup", "cdn-nachos",
   "cdn-fries", "cdn-wings", "cdn", "c", "media-files",
   "mlk-bk.cdn.gigachad-cdn"].map String.toList

def bunkrTlds : List (List Char) :=
  ["ru", "sk", "pk", "su", "black", "cr"].map String.toList

/-- `https://bunkr.sk`, `BunkrrCrawler.primary_base_domain`. -/
def primaryBaseDomain : Url :=
  { scheme := "https".toList, host := some ("bunkr.sk".toList), segs := [] }

/-- `BunkrrCrawler.get_stream_link` (bunkrr_crawler.py 1528-1594).
The source's `if not url.parts or len(url.parts) < 1` is modelled as
the single test `parts.length < 1` on `('/',) + segments`. -/
def get_stream_link (u : Url) : Url :=
  match u.host with
  | none => u
  | some host =>
    let host_parts := splitOnChar '.' host
    let domain_part := host_parts.headD []
    let is_cdn : Bool :=
      if host_parts.length > 1 then
        cdnDomains.any (fun cdn =>
          domain_part == cdn || (cdn ++ ['-']).isPrefixOf domain_part
            || cdn.isPrefixOf domain_part)
      else false
    let is_cdn : Bool :=
      if is_cdn ∧ host_parts.length > 1 then
        let tld := host_parts.getLast?.getD []
        if ¬(tld ∈ bunkrTlds) ∧ ("bunkr".toList).isPrefixOf tld then true else is_cdn
      else is_cdn
    if !is_cdn then u
    else
      let ext := (pathSuffix u.name).map Char.toLower
      if ext = [] then u
      else
        let parts := (['/'] : List Char) :: u.segs
        if parts.length < 1 then u
        else if ext ∈ imagesExts then
          { scheme := "https".toList, host := some ("bunkr.sk".toList),
            segs := ["d".toList, u.lastPart] }
        else if ext ∈ videosExts then
          { scheme := "https".toList, host := some ("bunkr.sk".toList),
            segs := ["v".toList, u.lastPart] }
        else
          { scheme := "https".toList, host := some ("bunkr.sk".toList),
            segs := ["d".toList, u.lastPart] }

/-- Claim C10's precondition for "returned unchanged", following the
claim's words (first host label matches none of the recognized CDN
names; no host; no file extension). Second definition, written from the
claim for comparison with `get_stream_link`. -/
def c10ClaimUnchanged (u : Url) : Bool :=
  match u.host with
  | none => true
  | some host =>
    let firstLabel := (splitOnChar '.' host).headD []
    !(cdnDomains.contains firstLabel)
      || ((pathSuffix u.name).map Char.toLower == [])

/-- Claim C10's stated result for the "otherwise" branch. -/
def c10ClaimTarget (u : Url) : Url :=
  if (pathSuffix u.name).map Char.toLower ∈ videosExts then
    { scheme := "https".toList, host := some ("bunkr.sk".toList),
      segs := ["v".toList, u.lastPart] }
  else
    { scheme := "https".toList, host := some ("bunkr.sk".toList),
      segs := ["d".toList, u.lastPart] }

/-- Claim C10 as stated, at one URL: unchanged under the claim's
precondition, otherwise mapped to the claimed `/v/` or `/d/` URL. -/
def c10ClaimAt (u : Url) : Prop :=
  (c10ClaimUnchanged u = true → get_stream_link u = u) ∧
  (c10ClaimUnchanged u = false → get_stream_link u = c10ClaimTarget u)

/-- The amended precondition: also unchanged when the host is a single
label (no dot), and "matches" read as the source's `startswith`. -/
def c10AmendedUnchanged (u : Url) : Bool :=
  match u.host with
  | none => true
  | some host =>
    let ps := splitOnChar '.' host
    !(decide (ps.length > 1))
      || !(cdnDomains.any (fun cdn => cdn.isPrefixOf (ps.headD [])))
      || ((pathSuffix u.name).map Char.toLower == [])

/-! ## `TurbovidCrawler.scrape` (turbovid_crawler.py 25-72) -/

/-- Observable effects of a scrape handler. -/
inductive HEffect where
  | cookieUpdate
  | fetchJson
  | fetchBS4
  | handleFile
  | errorLog
deriving DecidableEq, Repr

/-- Parsed body of the Turbovid signing-API response. -/
structure TurbovidApiData where
  success : Bool
  url : List Char
  filename : Option (List Char)
deriving DecidableEq, Repr

/-- Environment of one `TurbovidCrawler.scrape` call.
`alreadyComplete` is the value of `check_complete_from_referer`
(Completion Store lookup; its implementation lives outside src/, the
boolean short-circuit protocol is modelled from the spec §4.5).
`apiResult` is the outcome of `client.get_json`; `handleFileResult`
the outcome of `handle_file` (outside src/, modelled from the spec as
the hand-off to the download pipeline). -/
structure TurbovidEnv where
  alreadyComplete : Bool
  videoId : List Char
  apiResult : Except Exc TurbovidApiData
  handleFileResult : Except Exc Unit
deriving Repr

/-- Result of the (unwrapped) `scrape` body. -/
inductive ScrapeOutcome where
  | previouslyCompleted
  | handledFile (url filename ext : List Char)
  | apiErrorReturn
  | raised (e : Exc)
deriving DecidableEq, Repr

/-- `TurbovidCrawler.scrape` (turbovid_crawler.py 26-72): effects and
outcome of the body protected by `error_handling_wrapper`. -/
def turbovidScrape (env : TurbovidEnv) : List HEffect × ScrapeOutcome :=
  if env.alreadyComplete then ([], ScrapeOutcome.previouslyCompleted)
  else
    match env.apiResult with
    | Except.error e => ([HEffect.cookieUpdate, HEffect.fetchJson], ScrapeOutcome.raised e)
    | Except.ok data =>
      if data.success = false then
        ([HEffect.cookieUpdate, HEffect.fetchJson, HEffect.errorLog],
          ScrapeOutcome.apiErrorReturn)
      else
        match get_filename_and_ext (data.filename.getD (env.videoId ++ ".mp4".toList)) false with
        | Except.error _ =>
          ([HEffect.cookieUpdate, HEffect.fetchJson], ScrapeOutcome.raised Exc.noExtension)
        | Except.ok (f, e) =>
          match env.handleFileResult with
          | Except.error exc =>
            ([HEffect.cookieUpdate, HEffect.fetchJson, HEffect.handleFile],
              ScrapeOutcome.raised exc)
          | Except.ok _ =>
            ([HEffect.cookieUpdate, HEffect.fetchJson, HEffect.handleFile],
              ScrapeOutcome.handledFile data.url f e)

/-- How a resolved item is accounted for at quiescence. -/
inductive Accounting where
  | previouslyCompleted
  | download
  | failureCounted (c : FailCat)
  | dropped
deriving DecidableEq, Repr

/-- Accounting of one wrapped `TurbovidCrawler.scrape` call: the
completion short-circuit counts as previously completed (spec §4.5), a
`handle_file` hand-off enters the download pipeline, an exception is
caught by `error_handling_wrapper`, which adds exactly one failure
category; the API-error `return` (turbovid_crawler.py 62-64) logs an
error and returns normally, incrementing nothing. -/
def turbovidAccounting (env : TurbovidEnv) : Accounting :=
  match (turbovidScrape env).2 with
  | ScrapeOutcome.previouslyCompleted => Accounting.previouslyCompleted
  | ScrapeOutcome.handledFile _ _ _ => Accounting.download
  | ScrapeOutcome.raised e => Accounting.failureCounted (scrapeFailureCategory e)
  | ScrapeOutcome.apiErrorReturn => Accounting.dropped

/-! ## `BunkrrCrawler.video` / `BunkrrCrawler.other` (bunkrr_crawler.py
175-296, 298-621): completion short-circuit -/

/-- Environment of one `BunkrrCrawler.video` call. The body after the
`get_BS4` fetch (bunkrr_crawler.py 183-296) is abstracted as the
environment-supplied trace `afterFetch`; the completion check at line
178 precedes the first fetch (lines 181-182), which is what claim C5
concerns, so the theorems below quantify over every `afterFetch`. -/
structure BunkrrVideoEnv where
  alreadyComplete : Bool
  afterFetch : List HEffect
deriving DecidableEq, Repr

/-- `BunkrrCrawler.video` (bunkrr_crawler.py 176-296): the URL rewrite
at line 177 is effect-free; returns the emitted effects and whether the
handler short-circuited as previously completed. -/
def bunkrrVideo (env : BunkrrVideoEnv) : List HEffect × Bool :=
  if env.alreadyComplete then ([], true)
  else (HEffect.fetchBS4 :: env.afterFetch, false)

/-- Environment of one `BunkrrCrawler.other` call; `afterFetch`
abstracts bunkrr_crawler.py 316-621 as in `BunkrrVideoEnv`. -/
structure BunkrrOtherEnv where
  alreadyComplete : Bool
  afterFetch : List HEffect
deriving DecidableEq, Repr

/-- `BunkrrCrawler.other` (bunkrr_crawler.py 299-621): the completion
check at line 304 precedes the `get_BS4` fetch at lines 312-313. -/
def bunkrrOther (env : BunkrrOtherEnv) : List HEffect × Bool :=
  if env.alreadyComplete then ([], true)
  else (HEffect.fetchBS4 :: env.afterFetch, false)

/-! ## `BunkrCrawler.get_file` (Bunkr_Spider.py 205-245) -/

/-- `MediaItem(url, referer, complete, filename, ext, original_filename)`. -/
structure MediaItem where
  url : Url
  referer : Url
  complete : Bool
  filename : List Char
  ext : List Char
  original_filename : List Char
deriving DecidableEq, Repr

/-- `https://bunkrr.su`, `BunkrCrawler.primary_base_domain`. -/
def bunkrrSuDomain : Url :=
  { scheme := "https".toList, host := some ("bunkrr.su".toList), segs := [] }

/-- `primary_base_domain.with_path(url.path)`. -/
def bunkrrWithPath (u : Url) : Url :=
  { scheme := "https".toList, host := some ("bunkrr.su".toList), segs := u.segs }

/-- `BunkrCrawler.check_for_la` (Bunkr_Spider.py 168-173). The
`assert url.host is not None` raises `AssertionError` on a host-less
URL. -/
def check_for_la (u : Url) : Except Exc Url :=
  match u.host with
  | none => Except.error (Exc.other none false)
  | some h =>
    if containsSub ("12".toList) h then
      Except.ok { u with
        host := some (replaceSub '.' "ru".toList ".la".toList
          (replaceSub '.' "su".toList ".la".toList h)) }
    else Except.ok u

/-- Page data `get_file` extracts: the `link.href` assignment found in
a head script (already `html.unescape`d), or `none` when no script
matches (then the bare `raise` at Bunkr_Spider.py 222 fires). -/
structure GetFilePage where
  scriptLink : Option Url
deriving DecidableEq, Repr

/-- Environment of one `BunkrCrawler.get_file` call: outcome of the
`get_BS4` fetch and of the `check_complete_singular` ledger lookup. -/
structure GetFileEnv where
  fetchResult : Except Exc GetFilePage
  checkComplete : Bool
deriving Repr

/-- The `try` body of `BunkrCrawler.get_file` (Bunkr_Spider.py 210-238),
given the already-rewritten `url'`. -/
def getFileBody (removeBunkrId : Bool) (env : GetFileEnv) (url' : Url) :
    Except Exc MediaItem := do
  let page ← env.fetchResult
  match page.scriptLink with
  | none => Except.error (Exc.other none false)
  | some link => do
    let fe ←
      match get_filename_and_ext link.name false with
      | Except.ok p => Except.ok p
      | Except.error _ =>
        match get_filename_and_ext url'.name false with
        | Except.ok p => Except.ok p
        | Except.error _ => Except.error Exc.noExtension
    let link ← if fe.2 ∈ imagesExts then Except.ok link else check_for_la link
    let rid := remove_id removeBunkrId fe.1 fe.2
    Except.ok
      { url := link, referer := url', complete := env.checkComplete,
        filename := rid.2, ext := fe.2, original_filename := rid.1 }

/-- Result of `get_file`: the number of `write_errored_scrape` records
written and the returned `MediaItem`. -/
structure GetFileResult where
  erroredScrapeWrites : Nat
  item : MediaItem
deriving DecidableEq, Repr

/-- `BunkrCrawler.get_file` (Bunkr_Spider.py 205-245): the whole body is
inside `try`; `except Exception` writes one errored-scrape record and
returns the sentinel `MediaItem(url, url, False, "", "", "")`. -/
def get_file (removeBunkrId : Bool) (env : GetFileEnv) (url : Url) : GetFileResult :=
  match getFileBody removeBunkrId env (bunkrrWithPath url) with
  | Except.ok m => { erroredScrapeWrites := 0, item := m }
  | Except.error _ =>
    { erroredScrapeWrites := 1,
      item := { url := bunkrrWithPath url, referer := bunkrrWithPath url,
                complete := false, filename := [], ext := [],
                original_filename := [] } }

/-- The `"d" in url.parts` branch of `BunkrCrawler.fetch`
(Bunkr_Spider.py 98-109) after `get_file` returns: when
`media.filename` is falsy the album is returned unchanged and nothing
is inserted; otherwise the media item is appended (and inserted into
the ledger when incomplete). -/
def fetchHandlesMedia (album : List MediaItem) (media : MediaItem) :
    List MediaItem × Bool :=
  if media.filename = [] then (album, false)
  else (album ++ [media], true)

/-! ## Task boundaries and `asyncio.TaskGroup` (main.py 38-46) -/

/-- Result of one spawned task body (one scrape job). -/
inductive TaskBodyResult where
  | ok
  | raises (e : Exc)
deriving DecidableEq, Repr

/-- Outcome of one task of the run. -/
inductive TaskOutcome where
  | completed
  | failureCounted (c : FailCat)
deriving DecidableEq, Repr

/-- Modelled from the spec: the task boundary around every scrape job
(`ScrapeMapper` / `Crawler.run`, not under src/). Spec §4.1/§7: every
task boundary catches all errors from its body, classifies them
(§4.3, realised by `error_handling_wrapper`'s categories) and records
the outcome, terminating only that task. -/
def taskBoundary (r : TaskBodyResult) : TaskOutcome :=
  match r with
  | TaskBodyResult.ok => TaskOutcome.completed
  | TaskBodyResult.raises e => TaskOutcome.failureCounted (scrapeFailureCategory e)

/-- `asyncio.TaskGroup` semantics (main.py 43-45): if any child task
raises, the group cancels the siblings and re-raises (`none`);
otherwise all children run to completion. -/
def asyncioTaskGroup {α : Type} : List (Except Exc α) → Option (List α)
  | [] => some []
  | Except.error _ :: _ => none
  | Except.ok a :: rest => (asyncioTaskGroup rest).map (a :: ·)

/-- `runtime` (main.py 38-46): every submitted job runs as a TaskGroup
child behind the task boundary. -/
def runtimeRun (jobs : List TaskBodyResult) : Option (List TaskOutcome) :=
  asyncioTaskGroup (jobs.map (fun j => Except.ok (taskBoundary j)))

/-! ## Lemmas about the string primitives -/

theorem mem_pyStrip {c : Char} {s : List Char} (h : c ∈ pyStrip s) : c ∈ s := by
  unfold pyStrip at h
  rw [List.mem_reverse] at h
  have h2 := (List.dropWhile_sublist _).subset h
  rw [List.mem_reverse] at h2
  exact (List.dropWhile_sublist _).subset h2

theorem length_pyStrip_le (s : List Char) : (pyStrip s).length ≤ s.length := by
  unfold pyStrip
  rw [List.length_reverse]
  calc ((s.dropWhile isPyWhitespace).reverse.dropWhile isPyWhitespace).length
      ≤ (s.dropWhile isPyWhitespace).reverse.length := (List.dropWhile_sublist _).length_le
    _ = (s.dropWhile isPyWhitespace).length := List.length_reverse _
    _ ≤ s.length := (List.dropWhile_sublist _).length_le

theorem mem_rstripDots {c : Char} {s : List Char} (h : c ∈ rstripDots s) : c ∈ s := by
  unfold rstripDots at h
  rw [List.mem_reverse] at h
  have h2 := (List.dropWhile_sublist _).subset h
  exact List.mem_reverse.mp h2

theorem length_rstripDots_le (s : List Char) : (rstripDots s).length ≤ s.length := by
  unfold rstripDots
  rw [List.length_reverse]
  calc (s.reverse.dropWhile (fun c => c = '.')).length
      ≤ s.reverse.length := (List.dropWhile_sublist _).length_le
    _ = s.length := List.length_reverse _

theorem isPrefixOf_append_self (l m : List Char) : l.isPrefixOf (l ++ m) = true := by
  induction l with
  | nil => simp [List.isPrefixOf]
  | cons a t ih => simp [List.isPrefixOf, ih]

theorem isPrefixOf_self (l : List Char) : l.isPrefixOf l = true := by
  have h := isPrefixOf_append_self l []
  rwa [List.append_nil] at h

theorem isPrefixOf_of_append_isPrefixOf (x y z : List Char)
    (h : (x ++ y).isPrefixOf z = true) : x.isPrefixOf z = true := by
  induction x generalizing z with
  | nil => simp [List.isPrefixOf]
  | cons a t ih =>
    cases z with
    | nil => simp [List.isPrefixOf] at h
    | cons b zt =>
      simp only [List.cons_append, List.isPrefixOf, Bool.and_eq_true, beq_iff_eq] at h ⊢
      exact ⟨h.1, ih zt h.2⟩

theorem firstOcc_nil_sep (l : List Char) : firstOcc [] l = some 0 := by
  cases l with
  | nil => simp [firstOcc]
  | cons a t => simp [firstOcc, List.isPrefixOf]

theorem firstOcc_left (sep a : List Char) (h : sep ≠ []) :
    firstOcc sep (sep ++ a) = some 0 := by
  match sep with
  | [] => exact absurd rfl h
  | s :: st =>
    show firstOcc (s :: st) ((s :: st) ++ a) = some 0
    simp [firstOcc, isPrefixOf_append_self]

theorem firstOcc_single_not_mem {c : Char} {s : List Char} (h : c ∉ s) :
    firstOcc [c] s = none := by
  induction s with
  | nil => simp [firstOcc]
  | cons a t ih =>
    have hac : c ≠ a := fun he => h (List.mem_cons.mpr (Or.inl he))
    have hct : c ∉ t := fun hm => h (List.mem_cons_of_mem a hm)
    have hpre : ([c].isPrefixOf (a :: t)) = false := by
      simp [List.isPrefixOf, hac]
    simp [firstOcc, hpre, ih hct]

theorem firstOcc_single_mid {c : Char} (b d : List Char) (h : c ∉ b) :
    firstOcc [c] (b ++ c :: d) = some b.length := by
  induction b with
  | nil =>
    rw [List.nil_append]
    simp [firstOcc, List.isPrefixOf]
  | cons a t ih =>
    have hac : c ≠ a := fun he => h (List.mem_cons.mpr (Or.inl he))
    have hct : c ∉ t := fun hm => h (List.mem_cons_of_mem a hm)
    have hpre : ([c].isPrefixOf (a :: (t ++ c :: d))) = false := by
      simp [List.isPrefixOf, hac]
    rw [List.cons_append]
    simp [firstOcc, hpre, ih hct]

/-- `s.rsplit(sep, 1)[0]` of a string that ends in `sep` is the part
before that final `sep`. -/
theorem rsplitBefore_append (sep a : List Char) :
    rsplitBefore sep (a ++ sep) = a := by
  by_cases hsep : sep = []
  · subst hsep
    simp [rsplitBefore, firstOcc_nil_sep]
  · unfold rsplitBefore
    rw [List.reverse_append]
    have hrev : sep.reverse ≠ [] := by
      simpa using hsep
    rw [firstOcc_left _ _ hrev]
    have hlen : sep.length = sep.reverse.length := (List.length_reverse _).symm
    simp only [Nat.zero_add]
    rw [hlen, List.drop_left, List.reverse_reverse]

/-- `s.rsplit('-', 1)[0]` when the final hyphen separates `base` from a
hyphen-free `id`. -/
theorem rsplitBefore_dash (base id : List Char) (h : '-' ∉ id) :
    rsplitBefore ['-'] (base ++ '-' :: id) = base := by
  unfold rsplitBefore
  have hrev : '-' ∉ id.reverse := fun hm => h (List.mem_reverse.mp hm)
  have h1 : (base ++ '-' :: id).reverse = id.reverse ++ '-' :: base.reverse := by
    simp
  have h2 : (['-'] : List Char).reverse = ['-'] := rfl
  rw [h1, h2, firstOcc_single_mid _ _ hrev]
  have h3 : id.reverse ++ '-' :: base.reverse = (id.reverse ++ ['-']) ++ base.reverse := by
    simp
  have h4 : id.reverse.length + (['-'] : List Char).length = (id.reverse ++ ['-']).length := by
    simp
  show ((id.reverse ++ '-' :: base.reverse).drop
      (id.reverse.length + (['-'] : List Char).length)).reverse = base
  rw [h3, h4, List.drop_left, List.reverse_reverse]

/-- `s.rsplit('-', 1)[0]` of a hyphen-free string is the string itself. -/
theorem rsplitBefore_dash_free (s : List Char) (h : '-' ∉ s) :
    rsplitBefore ['-'] s = s := by
  unfold rsplitBefore
  have hrev : '-' ∉ s.reverse := fun hm => h (List.mem_reverse.mp hm)
  have h2 : (['-'] : List Char).reverse = ['-'] := rfl
  rw [h2, firstOcc_single_not_mem hrev]

theorem mem_collapseRuns {c x : Char} : (l : List Char) → x ∈ collapseRuns c l → x ∈ l
  | [], h => by simp [collapseRuns] at h
  | [a], h => by
    simp [collapseRuns] at h
    simp [h]
  | a :: b :: rest, h => by
    rw [collapseRuns] at h
    split at h
    · exact List.mem_cons_of_mem a (mem_collapseRuns (b :: rest) h)
    · rcases List.mem_cons.mp h with h1 | h2
      · exact h1 ▸ List.mem_cons_self a (b :: rest)
      · exact List.mem_cons_of_mem a (mem_collapseRuns (b :: rest) h2)

theorem mem_sanitize {c : Char} {s : List Char} (h : c ∈ sanitize s) :
    illegalNameChars.contains c = false := by
  unfold sanitize at h
  have h1 := mem_pyStrip h
  have h2 := List.of_mem_filter h1
  simpa using h2

theorem length_sanitize_le (s : List Char) : (sanitize s).length ≤ s.length := by
  unfold sanitize
  calc (pyStrip (s.filter (fun c => !(illegalNameChars.contains c)))).length
      ≤ (s.filter (fun c => !(illegalNameChars.contains c))).length := length_pyStrip_le _
    _ ≤ s.length := List.length_filter_le _ _

/-! ## Claim theorems -/

theorem taskGroup_all_ok (l : List TaskBodyResult) :
    asyncioTaskGroup (l.map (fun j => Except.ok (taskBoundary j))) =
      some (l.map taskBoundary) := by
  induction l with
  | nil => rfl
  | cons a t ih => simp [asyncioTaskGroup, ih]

/-- C2: a job whose body raises an unrecoverable (even unclassified)
exception does not prevent sibling jobs from completing and does not
abort the run: behind the (spec-modelled) task boundary no exception
reaches the `asyncio.TaskGroup` of `runtime`, so the group never
cancels; every sibling's outcome is that of its own body and the
failing job is recorded with its classified category. -/
theorem c2_failure_isolation (pre post : List TaskBodyResult) (e : Exc) :
    runtimeRun (pre ++ TaskBodyResult.raises e :: post) =
      some ((pre.map taskBoundary) ++
        TaskOutcome.failureCounted (scrapeFailureCategory e) :: (post.map taskBoundary)) := by
  unfold runtimeRun
  rw [taskGroup_all_ok]
  simp [taskBoundary]

/-- C3: every exception raised by a function wrapped with
`error_handling_wrapper` (when the wrapped call's first argument is a
URL or has a `.url` attribute) is caught and not re-raised; the
wrapper increments exactly one scrape-failure counter, with the
category the claim assigns to the exception, and writes exactly one
error-log record. -/
theorem c3_wrapper_classification (hasUrl : Bool) (e : Exc)
    (h : hasUrl = true) :
    ∃ eff : WrapperEffects,
      error_handling_wrapper (α := Unit) hasUrl (Except.error e) = Except.ok (none, eff) ∧
      eff.failuresAdded = [claimCategory e] ∧
      eff.scrapeErrorLogWrites + eff.unsupportedUrlsLogWrites = 1 ∧
      1 ≤ eff.logCalls := by
  subst h
  refine ⟨_, rfl, ?_, ?_, ?_⟩
  · show [scrapeFailureCategory e] = [claimCategory e]
    cases e with
    | noExtension => rfl
    | passwordProtected => rfl
    | failedLogin => rfl
    | invalidContentType => rfl
    | timeout => rfl
    | other s m => cases s <;> rfl
  · cases e with
    | noExtension => rfl
    | passwordProtected => rfl
    | failedLogin => rfl
    | invalidContentType => rfl
    | timeout => rfl
    | other s m => rfl
  · cases e with
    | noExtension => decide
    | passwordProtected => decide
    | failedLogin => decide
    | invalidContentType => decide
    | timeout => decide
    | other s m => cases s <;> simp

/-- C3 witness: the wrapper's behaviour on a concrete `asyncio.TimeoutError`. -/
theorem c3_wrapper_classification_witness :
    ∃ eff : WrapperEffects,
      error_handling_wrapper (α := Unit) true (Except.error Exc.timeout) = Except.ok (none, eff) ∧
      eff.failuresAdded = [claimCategory Exc.timeout] ∧
      eff.scrapeErrorLogWrites + eff.unsupportedUrlsLogWrites = 1 ∧
      1 ≤ eff.logCalls :=
  c3_wrapper_classification true Exc.timeout rfl

/-- C4 counterexample: with the remove-generated-id option enabled, the
names `a-b-c.jpg` (base `a-b`, generated id `c`) and `a-b.jpg` do not
collapse to the same canonical filename: the first canonicalizes to
`a-b.jpg`, the second to `a.jpg`. -/
theorem c4_counterexample :
    (remove_id true ("a-b-c.jpg".toList) (".jpg".toList)).2 = "a-b.jpg".toList ∧
    (remove_id true ("a-b.jpg".toList) (".jpg".toList)).2 = "a.jpg".toList ∧
    ("a-b.jpg".toList : List Char) ≠ "a.jpg".toList := by
  refine ⟨by decide, by decide, by decide⟩

/-- C4 amended: with the option enabled, `base + "-" + id + ext` and
`base + ext` canonicalize to the same filename whenever the base and
the generated id contain no hyphen and the (nonempty) extension does
not occur inside the base. -/
theorem c4_remove_id_amended (base id ext : List Char)
    (hb : '-' ∉ base) (hi : '-' ∉ id) (_hext : ext ≠ [])
    (he : containsSub ext base = false) :
    (remove_id true (base ++ '-' :: id ++ ext) ext).2 =
    (remove_id true (base ++ ext) ext).2 := by
  have hassoc : base ++ '-' :: id ++ ext = (base ++ '-' :: id) ++ ext := by simp
  unfold remove_id
  rw [if_pos rfl, if_pos rfl]
  simp only [hassoc, rsplitBefore_append]
  rw [rsplitBefore_dash base id hi, rsplitBefore_dash_free base hb, he]

/-- C4 amended, witnessed at `file-ab12.jpg` vs `file.jpg`. -/
theorem c4_remove_id_amended_witness :
    (remove_id true ("file".toList ++ '-' :: "ab12".toList ++ ".jpg".toList) (".jpg".toList)).2 =
    (remove_id true ("file".toList ++ ".jpg".toList) (".jpg".toList)).2 :=
  c4_remove_id_amended ("file".toList) ("ab12".toList) (".jpg".toList)
    (by decide) (by decide) (by decide) (by decide)

/-- C5: for a scrape item whose resource the Completion Store already
records as complete, `BunkrrCrawler.video`, `BunkrrCrawler.other` and
`TurbovidCrawler.scrape` return immediately as previously completed:
no HTTP fetch is performed and `handle_file` is never called. -/
theorem c5_completion_short_circuit (v : BunkrrVideoEnv) (o : BunkrrOtherEnv)
    (tv : TurbovidEnv) :
    (v.alreadyComplete = true → bunkrrVideo v = ([], true)) ∧
    (o.alreadyComplete = true → bunkrrOther o = ([], true)) ∧
    (tv.alreadyComplete = true →
      turbovidScrape tv = ([], ScrapeOutcome.previouslyCompleted)) := by
  refine ⟨fun h => ?_, fun h => ?_, fun h => ?_⟩ <;>
    simp [bunkrrVideo, bunkrrOther, turbovidScrape, h]

/-- C5 witness: concrete already-complete environments short-circuit. -/
theorem c5_completion_short_circuit_witness :
    bunkrrVideo { alreadyComplete := true, afterFetch := [HEffect.handleFile] } = ([], true) ∧
    bunkrrOther { alreadyComplete := true, afterFetch := [HEffect.fetchBS4] } = ([], true) ∧
    turbovidScrape
      { alreadyComplete := true, videoId := "v".toList,
        apiResult := Except.ok { success := true, url := "u".toList, filename := none },
        handleFileResult := Except.ok () } = ([], ScrapeOutcome.previouslyCompleted) := by
  obtain ⟨h1, h2, h3⟩ := c5_completion_short_circuit
    { alreadyComplete := true, afterFetch := [HEffect.handleFile] }
    { alreadyComplete := true, afterFetch := [HEffect.fetchBS4] }
    { alreadyComplete := true, videoId := "v".toList,
      apiResult := Except.ok { success := true, url := "u".toList, filename := none },
      handleFileResult := Except.ok () }
  exact ⟨h1 rfl, h2 rfl, h3 rfl⟩

/-- C1 counterexample: when the item is not previously completed and
the Turbovid signing API answers without `success`,
`TurbovidCrawler.scrape` logs an error and returns: the path ends in
neither a download, nor a previously-completed mark, nor a counted
failure. -/
theorem c1_counterexample :
    turbovidAccounting
      { alreadyComplete := false, videoId := "vid1".toList,
        apiResult := Except.ok { success := false, url := [], filename := none },
        handleFileResult := Except.ok () } = Accounting.dropped ∧
    (turbovidScrape
      { alreadyComplete := false, videoId := "vid1".toList,
        apiResult := Except.ok { success := false, url := [], filename := none },
        handleFileResult := Except.ok () }).1 =
      [HEffect.cookieUpdate, HEffect.fetchJson, HEffect.errorLog] :=
  ⟨rfl, rfl⟩

/-- C1 amended: every code path of the wrapped `TurbovidCrawler.scrape`
accounts the item exactly once — previously completed, a download
hand-off, or one counted failure — except the API-error return
(turbovid_crawler.py 62-64), which logs an error and returns without
incrementing any counter: a run is unaccounted exactly when it is not
previously complete and the API reports no success. -/
theorem c1_accounting_amended (env : TurbovidEnv) :
    (env.alreadyComplete = false →
      ∀ d : TurbovidApiData, env.apiResult = Except.ok d → d.success = false →
        turbovidAccounting env = Accounting.dropped) ∧
    (turbovidAccounting env = Accounting.dropped →
      env.alreadyComplete = false ∧
        ∃ d : TurbovidApiData, env.apiResult = Except.ok d ∧ d.success = false) := by
  obtain ⟨ac, vid, api, hf⟩ := env
  constructor
  · intro hac d hapi hs
    simp only at hac hapi
    subst hac hapi
    simp [turbovidAccounting, turbovidScrape, hs]
  · intro hdrop
    unfold turbovidAccounting turbovidScrape at hdrop
    simp only at hdrop ⊢
    cases ac with
    | true => simp at hdrop
    | false =>
      simp only [Bool.false_eq_true, if_false] at hdrop
      cases api with
      | error e => simp at hdrop
      | ok d =>
        refine ⟨rfl, d, rfl, ?_⟩
        by_cases hs : d.success = false
        · exact hs
        · exfalso
          simp only [hs, if_false] at hdrop
          rcases hgfe : get_filename_and_ext (d.filename.getD (vid ++ ".mp4".toList)) false with he | hok
          · rw [hgfe] at hdrop
            simp at hdrop
          · rw [hgfe] at hdrop
            cases hf <;> simp at hdrop

/-- C1 amended, witnessed at a concrete API-error response. -/
theorem c1_accounting_amended_witness :
    turbovidAccounting
      { alreadyComplete := false, videoId := "w".toList,
        apiResult := Except.ok { success := false, url := "u".toList,
                                 filename := some ("f.mp4".toList) },
        handleFileResult := Except.ok () } = Accounting.dropped :=
  (c1_accounting_amended _).1 rfl _ rfl rfl

/-- C8: every exception arising in `BunkrCrawler.get_file`'s body is
caught: exactly one errored-scrape record is written, the sentinel
`MediaItem(url, url, False, "", "", "")` is returned, and the `"d"`
branch of `fetch` then returns the album unchanged, adding no
download. -/
theorem c8_get_file_degrades (rm : Bool) (env : GetFileEnv) (url : Url)
    (e : Exc) (album : List MediaItem)
    (h : getFileBody rm env (bunkrrWithPath url) = Except.error e) :
    get_file rm env url =
      { erroredScrapeWrites := 1,
        item := { url := bunkrrWithPath url, referer := bunkrrWithPath url,
                  complete := false, filename := [], ext := [],
                  original_filename := [] } } ∧
    fetchHandlesMedia album (get_file rm env url).item = (album, false) := by
  unfold get_file
  rw [h]
  exact ⟨rfl, rfl⟩

/-- C8 witness: a concrete failing fetch degrades to the sentinel. -/
theorem c8_get_file_degrades_witness :
    get_file false ⟨Except.error Exc.timeout, false⟩
        ⟨"https".toList, some ("bunkr.ru".toList), ["f.mp4".toList]⟩ =
      ⟨1, ⟨bunkrrWithPath ⟨"https".toList, some ("bunkr.ru".toList), ["f.mp4".toList]⟩,
        bunkrrWithPath ⟨"https".toList, some ("bunkr.ru".toList), ["f.mp4".toList]⟩,
        false, [], [], []⟩⟩ ∧
    fetchHandlesMedia []
      (get_file false ⟨Except.error Exc.timeout, false⟩
        ⟨"https".toList, some ("bunkr.ru".toList), ["f.mp4".toList]⟩).item = ([], false) :=
  c8_get_file_degrades false ⟨Except.error Exc.timeout, false⟩
    ⟨"https".toList, some ("bunkr.ru".toList), ["f.mp4".toList]⟩ Exc.timeout [] rfl

theorem gfeBase_length_le (p : List Char) :
    (gfeBase p).length ≤ MAX_NAME_LENGTH_FILE := by
  unfold gfeBase
  have h1 : (if p.length > MAX_NAME_LENGTH_FILE then
      p.take MAX_NAME_LENGTH_FILE else p).length ≤ MAX_NAME_LENGTH_FILE := by
    split
    · rw [List.length_take]
      omega
    · omega
  calc (rstripDots (pyStrip (if p.length > MAX_NAME_LENGTH_FILE then
          p.take MAX_NAME_LENGTH_FILE else p))).length
      ≤ (pyStrip (if p.length > MAX_NAME_LENGTH_FILE then
          p.take MAX_NAME_LENGTH_FILE else p)).length := length_rstripDots_le _
    _ ≤ (if p.length > MAX_NAME_LENGTH_FILE then
          p.take MAX_NAME_LENGTH_FILE else p).length := length_pyStrip_le _
    _ ≤ MAX_NAME_LENGTH_FILE := h1

theorem c6_shape (b p2 : List Char) (hb : b.length ≤ MAX_NAME_LENGTH_FILE)
    (h2 : p2.length ≤ 5) :
    (∀ c ∈ sanitize (b ++ ('.' :: p2.map Char.toLower)),
      illegalNameChars.contains c = false) ∧
    (∃ b2 : List Char, b2.length ≤ MAX_NAME_LENGTH_FILE ∧
      sanitize (b ++ ('.' :: p2.map Char.toLower)) =
        sanitize (b2 ++ ('.' :: p2.map Char.toLower))) ∧
    (sanitize (b ++ ('.' :: p2.map Char.toLower))).length ≤
      MAX_NAME_LENGTH_FILE + ('.' :: p2.map Char.toLower).length ∧
    ('.' :: p2.map Char.toLower).head? = some '.' ∧
    ('.' :: p2.map Char.toLower).length ≤ 6 ∧
    (∃ raw : List Char, ('.' :: p2.map Char.toLower) = '.' :: raw.map Char.toLower) := by
  refine ⟨fun c hc => mem_sanitize hc, ⟨b, hb, rfl⟩, ?_, rfl, ?_, ⟨p2, rfl⟩⟩
  · calc (sanitize (b ++ ('.' :: p2.map Char.toLower))).length
        ≤ (b ++ ('.' :: p2.map Char.toLower)).length := length_sanitize_le _
      _ = b.length + ('.' :: p2.map Char.toLower).length := List.length_append _ _
      _ ≤ MAX_NAME_LENGTH_FILE + ('.' :: p2.map Char.toLower).length := by omega
  · simp only [List.length_cons, List.length_map]
    omega

/-- C6: whenever `get_filename_and_ext` returns without raising, the
returned filename contains none of the characters
`< > : " / \ | ? * '`; its base name before the extension is truncated
to at most 95 characters (`MAX_NAME_LENGTHS['FILE']`), so the filename
is at most `95 + ext.length` long; and the returned extension starts
with `.`, is lower-cased, and is at most 6 characters long. -/
theorem c6_filename_sanitized (f : List Char) (forum : Bool) (fn ex : List Char)
    (h : get_filename_and_ext f forum = Except.ok (fn, ex)) :
    (∀ c ∈ fn, illegalNameChars.contains c = false) ∧
    (∃ b : List Char, b.length ≤ MAX_NAME_LENGTH_FILE ∧ fn = sanitize (b ++ ex)) ∧
    fn.length ≤ MAX_NAME_LENGTH_FILE + ex.length ∧
    ex.head? = some '.' ∧ ex.length ≤ 6 ∧
    (∃ raw : List Char, ex = '.' :: raw.map Char.toLower) := by
  simp only [get_filename_and_ext] at h
  split at h
  · exact Except.noConfusion h
  · split at h
    · exact Except.noConfusion h
    · rename_i p0 p1 hsp
      split at h
      · exact Except.noConfusion h
      · rename_i hlen
        injection h with h1
        injection h1 with hfn hex
        subst hfn
        subst hex
        exact c6_shape (gfeBase (gfeParts p0 p1 forum).1) (gfeParts p0 p1 forum).2
          (gfeBase_length_le _) (by omega)

/-- C6 witness: `get_filename_and_ext` on `photo.JPG`. -/
theorem c6_filename_sanitized_witness :
    (∀ c ∈ ("photo.jpg".toList : List Char), illegalNameChars.contains c = false) ∧
    (∃ b : List Char, b.length ≤ MAX_NAME_LENGTH_FILE ∧
      ("photo.jpg".toList : List Char) = sanitize (b ++ ".jpg".toList)) ∧
    ("photo.jpg".toList : List Char).length ≤ MAX_NAME_LENGTH_FILE + (".jpg".toList : List Char).length ∧
    (".jpg".toList : List Char).head? = some '.' ∧ (".jpg".toList : List Char).length ≤ 6 ∧
    (∃ raw : List Char, (".jpg".toList : List Char) = '.' :: raw.map Char.toLower) :=
  c6_filename_sanitized ("photo.JPG".toList) false ("photo.jpg".toList) (".jpg".toList) rfl

theorem folderCharMap_not_illegal (x : Char) (l : List Char)
    (h : x ∈ l.map folderCharMap) : folderIllegalChars.contains x = false := by
  obtain ⟨y, hy, hxy⟩ := List.mem_map.mp h
  unfold folderCharMap at hxy
  by_cases hill : folderIllegalChars.contains y = true
  · rw [if_pos hill] at hxy
    rw [← hxy]
    decide
  · rw [if_neg hill] at hxy
    rw [← hxy]
    simpa using hill

theorem mem_of_folderCharMap {x : Char} (hx : x ≠ '-') (l : List Char)
    (h : x ∈ l.map folderCharMap) : x ∈ l := by
  obtain ⟨y, hy, hxy⟩ := List.mem_map.mp h
  unfold folderCharMap at hxy
  by_cases hill : folderIllegalChars.contains y = true
  · rw [if_pos hill] at hxy
    exact absurd hxy.symm hx
  · rw [if_neg hill] at hxy
    rwa [hxy] at hy

theorem mem_folderPreprocess {x : Char} (t : List Char)
    (h : x ∈ folderPreprocess t) : folderIllegalChars.contains x = false := by
  simp only [folderPreprocess] at h
  exact folderCharMap_not_illegal _ _ (mem_collapseRuns _ (mem_rstripDots (mem_pyStrip h)))

theorem mem_title_of_folderPreprocess {x : Char} (hx : x ≠ '-') (t : List Char)
    (h : x ∈ folderPreprocess t) : x ∈ t := by
  simp only [folderPreprocess] at h
  have h1 := mem_collapseRuns _ (mem_rstripDots (mem_pyStrip h))
  have h2 := mem_of_folderCharMap hx _ h1
  have h3 := mem_collapseRuns _ h2
  have h4 := List.mem_of_mem_filter (mem_pyStrip h3)
  exact List.mem_of_mem_filter (mem_pyStrip h4)

/-- C7 counterexample: `sanitize_folder` applied to the title
`a (` + 70 × `b` + `)` keeps the whole parenthesized suffix, so the
result is 74 characters long, above the claimed 60-character bound
(`MAX_NAME_LENGTHS['FOLDER']`). -/
theorem c7_counterexample :
    MAX_NAME_LENGTH_FOLDER <
      (sanitize_folder ("a (".toList ++ List.replicate 70 'b' ++ ")".toList)).length := by
  decide

/-- C7 amended: `sanitize_folder` always removes the characters
`\ * ? : " < > | /`, and its result is at most 60 characters
(`MAX_NAME_LENGTHS['FOLDER']`) whenever the title does not contain both
`(` and `)`; with a parenthesized suffix, only the part before the
first `(` is truncated to 60 characters and the suffix is re-appended
without any length bound. -/
theorem c7_sanitize_folder_amended (t : List Char) :
    (∀ c ∈ sanitize_folder t, folderIllegalChars.contains c = false) ∧
    (('(' ∉ t ∨ ')' ∉ t) →
      (sanitize_folder t).length ≤ MAX_NAME_LENGTH_FOLDER) := by
  constructor
  · intro c hc
    simp only [sanitize_folder] at hc
    split at hc
    · rcases List.mem_append.mp hc with hL | hB
      · rcases List.mem_append.mp hL with hA | hmid
        · have m1 := mem_pyStrip hA
          have m2 := (List.take_sublist _ _).subset m1
          have m3 := mem_pyStrip m2
          have m4 := (List.takeWhile_sublist _).subset m3
          exact mem_folderPreprocess t m4
        · rcases List.mem_cons.mp hmid with he | he2
          · rw [he]
            decide
          · rcases List.mem_cons.mp he2 with he3 | he4
            · rw [he3]
              decide
            · exact absurd he4 (List.not_mem_nil c)
      · have m1 := mem_pyStrip hB
        have m2 := (List.takeWhile_sublist _).subset m1
        have m3 := (List.drop_sublist _ _).subset m2
        have m4 := (List.dropWhile_sublist _).subset m3
        exact mem_folderPreprocess t m4
    · have m1 := mem_pyStrip hc
      have m2 := (List.take_sublist _ _).subset m1
      exact mem_folderPreprocess t m2
  · intro hpar
    have hcond : ¬('(' ∈ folderPreprocess t ∧ ')' ∈ folderPreprocess t) := by
      rintro ⟨h1, h2⟩
      cases hpar with
      | inl hl => exact hl (mem_title_of_folderPreprocess (by decide) t h1)
      | inr hr => exact hr (mem_title_of_folderPreprocess (by decide) t h2)
    simp only [sanitize_folder]
    rw [if_neg hcond]
    calc (pyStrip ((folderPreprocess t).take MAX_NAME_LENGTH_FOLDER)).length
        ≤ ((folderPreprocess t).take MAX_NAME_LENGTH_FOLDER).length := length_pyStrip_le _
      _ ≤ MAX_NAME_LENGTH_FOLDER := by
          rw [List.length_take]
          omega

/-- C7 amended, witnessed on a concrete parenthesis-free title. -/
theorem c7_sanitize_folder_amended_witness :
    (sanitize_folder ("my / album: name".toList)).length ≤ MAX_NAME_LENGTH_FOLDER :=
  (c7_sanitize_folder_amended ("my / album: name".toList)).2 (Or.inl (by decide))

theorem cdn_or_collapse (dp cdn : List Char) :
    (dp == cdn || (cdn ++ ['-']).isPrefixOf dp || cdn.isPrefixOf dp) =
      cdn.isPrefixOf dp := by
  by_cases hp : cdn.isPrefixOf dp = true
  · simp [hp]
  · have h1 : (dp == cdn) = false := by
      by_cases he : dp = cdn
      · subst he
        exact absurd (isPrefixOf_self dp) hp
      · simpa using he
    have h2 : ((cdn ++ ['-']).isPrefixOf dp) = false := by
      cases hap : (cdn ++ ['-']).isPrefixOf dp
      · rfl
      · exact absurd (isPrefixOf_of_append_isPrefixOf cdn ['-'] dp hap) hp
    simp only [h1, h2, Bool.false_or]

theorem tld_check_noop (b : Bool) (p q : Prop) [Decidable p] [Decidable q] :
    (if (b = true) ∧ p then (if q then true else b) else b) = b := by
  cases b <;> simp

theorem images_not_videos : ∀ e ∈ imagesExts, e ∉ videosExts := by decide

/-- C10 counterexample: for the single-label host `cdn` — whose first
(and only) label is exactly a recognized CDN name — with path `/x.mp4`,
the claim requires the video stream URL `https://bunkr.sk/v/x.mp4`,
but `get_stream_link` returns the URL unchanged, because only hosts
with more than one dot-separated label are treated as CDN hosts. -/
theorem c10_counterexample :
    ¬ c10ClaimAt ⟨"https".toList, some ("cdn".toList), ["x.mp4".toList]⟩ := by
  unfold c10ClaimAt
  decide

/-- C10 amended: `get_stream_link` returns the URL unchanged when the
URL has no host, or the host is a single label (no dot), or the first
host label starts with none of the recognized CDN names, or the path
has no file extension; otherwise the result is `https://bunkr.sk` with
path `/v/<last-segment>` for a video extension and `/d/<last-segment>`
for every other extension (including images). -/
theorem c10_get_stream_link_amended (u : Url) :
    get_stream_link u =
      if c10AmendedUnchanged u then u else c10ClaimTarget u := by
  obtain ⟨sch, ho, sg⟩ := u
  cases ho with
  | none => rfl
  | some host =>
    simp only [get_stream_link, c10AmendedUnchanged, c10ClaimTarget]
    have hOr : (fun cdn => (splitOnChar '.' host).headD [] == cdn
        || (cdn ++ ['-']).isPrefixOf ((splitOnChar '.' host).headD [])
        || cdn.isPrefixOf ((splitOnChar '.' host).headD []))
        = fun cdn => cdn.isPrefixOf ((splitOnChar '.' host).headD []) :=
      funext fun cdn => cdn_or_collapse _ cdn
    rw [hOr, tld_check_noop]
    by_cases hlen : (splitOnChar '.' host).length > 1
    · rw [if_pos hlen]
      cases hAb : (cdnDomains.any
          fun cdn => cdn.isPrefixOf ((splitOnChar '.' host).headD [])) with
      | false => simp [hAb, hlen]
      | true =>
        by_cases hext :
            ((pathSuffix (Url.name ⟨sch, some host, sg⟩)).map Char.toLower) = []
        · simp [hAb, hlen, hext]
        · by_cases him :
              ((pathSuffix (Url.name ⟨sch, some host, sg⟩)).map Char.toLower) ∈ imagesExts
          · have hnv := images_not_videos _ him
            simp [hAb, hlen, hext, him, hnv]
          · by_cases hv :
                ((pathSuffix (Url.name ⟨sch, some host, sg⟩)).map Char.toLower) ∈ videosExts
            · simp [hAb, hlen, hext, him, hv]
            · simp [hAb, hlen, hext, him, hv]
    · rw [if_neg hlen]
      simp [hlen]

end CyberdropDl
